import Mathlib

/-!
Verification of the `simple_chatbot` repository: an intent-routing chatbot
over an in-memory semantic document index, with a Next.js chat frontend.

The frontend chat page (`send` in the chat page component) is embedded
directly from the source. The backend core (embedding index, indexer,
intent classifier, router) is not part of the provided sources, so those
components are modelled from the specification document.
-/

namespace Chatbot

/-! ## Frontend chat page (embedded from the chat page source) -/

/-- Message role, from `type Msg = { role: 'user' | 'assistant'; ... }`. -/
inductive Role where
  | user : Role
  | assistant : Role
deriving DecidableEq, Repr

/-- A chat message, from `type Msg` in the chat page. -/
structure Msg where
  role : Role
  content : String
deriving DecidableEq, Repr

/-- The component state used by `send`: the `msgs`, `input` and `isLoading`
React state hooks. -/
structure ChatState where
  msgs : List Msg
  input : String
  isLoading : Bool
deriving DecidableEq, Repr

/-- Outcome of the `fetch` to the `/ask` endpoint as observed by `send`:
either the fetch (or JSON parsing) throws, or it yields a response with an
`ok` flag and optional `answer` and `error` JSON fields. -/
inductive AskOutcome where
  | throws : AskOutcome
  | response (ok : Bool) (answer : Option String) (err : Option String)
deriving DecidableEq, Repr

/-- JavaScript `String.prototype.trim`: strip leading and trailing
whitespace. -/
def jsTrim (s : String) : String :=
  ((s.toList.dropWhile Char.isWhitespace).reverse.dropWhile Char.isWhitespace).reverse.asString

/-- JavaScript truthiness of an optional string field: `undefined` and the
empty string are falsy. -/
def jsTruthy : Option String → Bool
  | none => false
  | some s => !(s == "")

/-- The assistant message content computed by `send`:
`data.answer` when `res.ok && data.answer`, otherwise
`data.error || 'An error occurred.'`, and `'Error connecting to backend.'`
in the catch branch. -/
def botContent : AskOutcome → String
  | .throws => "Error connecting to backend."
  | .response ok answer err =>
    if ok && jsTruthy answer then answer.getD ""
    else if jsTruthy err then err.getD "" else "An error occurred."

/-- The `send` handler of the chat page. Returns the state after the handler
completes, plus a flag recording whether the network request was issued.
Embeds: the `if (!input.trim() || isLoading) return;` guard, appending the
user message, clearing the input, the fetch, and appending the bot message
with `isLoading` reset. -/
def send (s : ChatState) (o : AskOutcome) : ChatState × Bool :=
  if (jsTrim s.input) = "" ∨ s.isLoading then (s, false)
  else
    ({ msgs := s.msgs ++ [⟨.user, s.input⟩, ⟨.assistant, botContent o⟩],
       input := "",
       isLoading := false }, true)

end Chatbot

/-! ## Theorems for the frontend claims -/

namespace Chatbot

/-- C10: calling `send` while the input is empty or whitespace-only, or while
a previous request is in flight, performs no network request and leaves the
message list, input text and loading flag unchanged. -/
theorem send_guard_no_effect (s : ChatState) (o : AskOutcome)
    (h : (jsTrim s.input) = "" ∨ s.isLoading = true) :
    send s o = (s, false) := by
  unfold send
  rcases h with h | h
  · rw [if_pos (Or.inl h)]
  · rw [if_pos (Or.inr h)]

/-- Witness for C10 at a concrete state: whitespace-only input. -/
theorem send_guard_no_effect_witness :
    send ⟨[], "   ", false⟩ .throws = (⟨[], "   ", false⟩, false) :=
  send_guard_no_effect ⟨[], "   ", false⟩ .throws (Or.inl (by decide))

/-- C9: every invocation of `send` that passes the input guard appends exactly
one user message and then one assistant message; the assistant content is the
response's `answer` field when the response is ok and the answer non-empty,
otherwise the `error` field if non-empty, otherwise "An error occurred.", and
"Error connecting to backend." when the fetch throws. -/
theorem send_appends_user_and_bot (s : ChatState) (o : AskOutcome)
    (hin : (jsTrim s.input) ≠ "") (hld : s.isLoading = false) :
    (send s o).2 = true ∧
    ∃ c, (send s o).1 = ⟨s.msgs ++ [⟨.user, s.input⟩, ⟨.assistant, c⟩], "", false⟩ ∧
      (o = .throws → c = "Error connecting to backend.") ∧
      (∀ ok answer err, o = .response ok answer err →
        ((ok = true ∧ ∃ a, answer = some a ∧ a ≠ "" ∧ c = a) ∨
         (¬(ok = true ∧ ∃ a, answer = some a ∧ a ≠ "") ∧
           ((∃ e, err = some e ∧ e ≠ "" ∧ c = e) ∨
            (¬(∃ e, err = some e ∧ e ≠ "") ∧ c = "An error occurred."))))) := by
  have hg : ¬((jsTrim s.input) = "" ∨ s.isLoading) := by
    rintro (h | h)
    · exact hin h
    · rw [hld] at h; exact Bool.false_ne_true h
  refine ⟨by simp [send, hg], botContent o, by simp [send, hg], ?_, ?_⟩
  · rintro rfl; rfl
  · rintro ok answer err rfl
    by_cases hok : ok = true ∧ jsTruthy answer = true
    · obtain ⟨hok1, hta⟩ := hok
      cases answer with
      | none => simp [jsTruthy] at hta
      | some a =>
        left
        refine ⟨hok1, a, rfl, ?_, ?_⟩
        · intro ha; subst ha; simp [jsTruthy] at hta
        · simp [botContent, hok1, hta]
    · right
      have hcond : ¬(ok && jsTruthy answer) = true := by
        intro hc
        exact hok ⟨(Bool.and_eq_true _ _ ▸ hc).1, (Bool.and_eq_true _ _ ▸ hc).2⟩
      constructor
      · rintro ⟨hok1, a, rfl, ha⟩
        exact hok ⟨hok1, by simp [jsTruthy, ha]⟩
      · by_cases hte : jsTruthy err = true
        · cases err with
          | none => simp [jsTruthy] at hte
          | some e =>
            left
            refine ⟨e, rfl, ?_, ?_⟩
            · intro he; subst he; simp [jsTruthy] at hte
            · simp [botContent, hcond, hte]
        · right
          constructor
          · rintro ⟨e, rfl, he⟩
            exact hte (by simp [jsTruthy, he])
          · simp [botContent, hcond, hte]

/-- Witness for C9 at a concrete state: an ok response whose `answer` field is
the empty string is rendered via the error branch. -/
theorem send_appends_user_and_bot_witness :
    (send ⟨[], "hi", false⟩ (.response true (some "") (some "boom"))).2 = true ∧
    ∃ c, (send ⟨[], "hi", false⟩ (.response true (some "") (some "boom"))).1 =
        ⟨[⟨.user, "hi"⟩, ⟨.assistant, c⟩], "", false⟩ ∧
      ((.response true (some "") (some "boom") : AskOutcome) = .throws →
        c = "Error connecting to backend.") ∧
      (∀ ok answer err,
        (.response true (some "") (some "boom") : AskOutcome) = .response ok answer err →
        ((ok = true ∧ ∃ a, answer = some a ∧ a ≠ "" ∧ c = a) ∨
         (¬(ok = true ∧ ∃ a, answer = some a ∧ a ≠ "") ∧
           ((∃ e, err = some e ∧ e ≠ "" ∧ c = e) ∨
            (¬(∃ e, err = some e ∧ e ≠ "") ∧ c = "An error occurred."))))) := by
  have h := send_appends_user_and_bot ⟨[], "hi", false⟩
    (.response true (some "") (some "boom")) (by decide) rfl
  simpa using h

end Chatbot

namespace Chatbot

/-! ## Backend data model (modelled from the spec) -/

/-- Modelled from the spec: the error taxonomy of §7 for the backend core
(`mcp_server` is not among the provided sources). -/
inductive CapError where
  | fetchError : String → CapError
  | writeError : String → CapError
  | embeddingError : String → CapError
  | completionError : String → CapError
  | indexBuildError : String → CapError
  | missingParameterError : String → CapError
deriving DecidableEq, Repr

/-- Modelled from the spec: `DocumentRecord` of §3, owned by the Document
Fetcher. The timestamp is abstracted as a natural number. -/
structure DocumentRecord where
  id : String
  title : String
  content : String
  updatedAt : ℕ
  sourceUri : String

/-- Modelled from the spec: `IndexedChunk` of §3; embeddings are ordered
sequences of floats, idealised here as real numbers. -/
structure IndexedChunk where
  documentId : String
  chunkId : String
  text : String
  embedding : List ℝ

/-- Modelled from the spec: the Embedding Index state of §3 — the chunk
store (the `chunkId → IndexedChunk` mapping, represented as the list of
stored chunks) together with the configured embedding dimension `D`. -/
structure IndexState where
  dim : ℕ
  chunks : List IndexedChunk

/-- Dot product of two vectors, pairwise over the common prefix. -/
def dot (a b : List ℝ) : ℝ :=
  (List.zipWith (· * ·) a b).sum

/-- L2 norm of a vector. -/
noncomputable def l2norm (a : List ℝ) : ℝ :=
  Real.sqrt (dot a a)

/-- Modelled from the spec: cosine similarity, "dot product over product of
L2 norms; a zero-norm embedding yields similarity 0 against any query (guard
against division by zero) rather than raising" (§4.1, missing source:
`mcp_server`). -/
noncomputable def cosineSim (a b : List ℝ) : ℝ :=
  if l2norm a = 0 ∨ l2norm b = 0 then 0 else dot a b / (l2norm a * l2norm b)

/-- Result ordering of `search`: descending by score, ties broken by
ascending `chunkId` (§4.1). -/
def rankLE (a b : String × ℝ) : Prop :=
  b.2 < a.2 ∨ (a.2 = b.2 ∧ a.1 ≤ b.1)

/-- Modelled from the spec: `search(queryEmbedding, k)` of §4.1 — score every
stored chunk by cosine similarity against the query, sort descending by score
with ties broken by ascending chunk id, and return the first `k` entries
(missing source: `mcp_server`). -/
noncomputable def search (s : IndexState) (q : List ℝ) (k : ℕ) :
    List (String × ℝ) :=
  (@List.insertionSort _ rankLE (fun _ _ => Classical.propDecidable _)
    (s.chunks.map fun c => (c.chunkId, cosineSim q c.embedding))).take k

/-- Modelled from the spec: `rebuild(chunks)` of §4.1 — replace the whole
index, failing with `IndexBuildError` if any chunk's embedding dimension
mismatches the configured `D` (missing source: `mcp_server`). -/
def rebuild (s : IndexState) (chunks : List IndexedChunk) :
    Except CapError IndexState :=
  if chunks.all (fun c => c.embedding.length = s.dim) then
    .ok { dim := s.dim, chunks := chunks }
  else
    .error (.indexBuildError "embedding dimension mismatch")

/-- Introspection summary returned by `describe()` (§4.1). -/
structure IndexSummary where
  documentCount : ℕ
  chunkCount : ℕ
deriving DecidableEq, Repr

/-- Modelled from the spec: `describe()` of §4.1 — document and chunk counts
of the current index (missing source: `mcp_server`). -/
def describe (s : IndexState) : IndexSummary :=
  { documentCount := (s.chunks.map (·.documentId)).dedup.length,
    chunkCount := s.chunks.length }

end Chatbot

namespace Chatbot

/-- C4: `rebuild` fails with `IndexBuildError` whenever some chunk's
embedding dimension differs from the configured dimension `D`, and after
every successful rebuild every stored chunk's embedding has exactly
dimension `D`. -/
theorem rebuild_dimension_invariant (s : IndexState)
    (chunks : List IndexedChunk) :
    ((∃ c ∈ chunks, c.embedding.length ≠ s.dim) →
      ∃ m, rebuild s chunks = .error (.indexBuildError m)) ∧
    (∀ s', rebuild s chunks = .ok s' →
      ∀ c ∈ s'.chunks, c.embedding.length = s'.dim) := by
  constructor
  · rintro ⟨c, hc, hlen⟩
    refine ⟨"embedding dimension mismatch", ?_⟩
    unfold rebuild
    rw [if_neg]
    intro hall
    exact hlen (by simpa using (List.all_eq_true.mp hall c hc))
  · intro s' hok c hc
    unfold rebuild at hok
    by_cases hall : chunks.all (fun c => c.embedding.length = s.dim)
    · rw [if_pos hall] at hok
      cases hok
      have := List.all_eq_true.mp hall c hc
      simpa using this
    · rw [if_neg hall] at hok
      cases hok

/-- Witness for C4 at a concrete index and chunk list: a one-chunk list whose
embedding has length 1 against configured dimension 2. -/
theorem rebuild_dimension_invariant_witness :
    ((∃ c ∈ [(⟨"d", "c0", "t", [(1 : ℝ)]⟩ : IndexedChunk)],
        c.embedding.length ≠ (2 : ℕ)) →
      ∃ m, rebuild ⟨2, []⟩ [(⟨"d", "c0", "t", [(1 : ℝ)]⟩ : IndexedChunk)] =
        .error (.indexBuildError m)) ∧
    (∀ s', rebuild ⟨2, []⟩ [(⟨"d", "c0", "t", [(1 : ℝ)]⟩ : IndexedChunk)] =
        .ok s' → ∀ c ∈ s'.chunks, c.embedding.length = s'.dim) :=
  rebuild_dimension_invariant ⟨2, []⟩ _

/-- C8: for every chunk list whose embeddings all have the configured
dimension `D`, `rebuild` succeeds and a subsequent `describe` reports a
`chunkCount` equal to the number of input chunks. -/
theorem rebuild_describe_chunkCount (s : IndexState)
    (chunks : List IndexedChunk)
    (hdim : ∀ c ∈ chunks, c.embedding.length = s.dim) :
    ∃ s', rebuild s chunks = .ok s' ∧
      (describe s').chunkCount = chunks.length := by
  refine ⟨{ dim := s.dim, chunks := chunks }, ?_, rfl⟩
  unfold rebuild
  rw [if_pos]
  exact List.all_eq_true.mpr fun c hc => by simpa using hdim c hc

/-- Witness for C8 at a concrete index and chunk list of two dimension-2
chunks. -/
theorem rebuild_describe_chunkCount_witness :
    ∃ s', rebuild ⟨2, []⟩
        [(⟨"d", "c0", "t0", [(1 : ℝ), 0]⟩ : IndexedChunk),
         (⟨"d", "c1", "t1", [(0 : ℝ), 1]⟩ : IndexedChunk)] = .ok s' ∧
      (describe s').chunkCount = 2 :=
  rebuild_describe_chunkCount ⟨2, []⟩ _ (by
    intro c hc
    rcases List.mem_cons.mp hc with rfl | hc
    · rfl
    rcases List.mem_cons.mp hc with rfl | hc
    · rfl
    cases hc)

end Chatbot

namespace Chatbot

/-! ## Cosine similarity bounds -/

/-- The list dot product as a finite sum over the common index range. -/
theorem dot_eq_sum (a b : List ℝ) :
    dot a b = ∑ i ∈ Finset.range (min a.length b.length),
      a.getD i 0 * b.getD i 0 := by
  induction a generalizing b with
  | nil => simp [dot]
  | cons x a ih =>
    cases b with
    | nil => simp [dot]
    | cons y b =>
      have : min (x :: a).length (y :: b).length = min a.length b.length + 1 := by
        simp [Nat.succ_min_succ]
      rw [this, Finset.sum_range_succ']
      simp only [List.getD_cons_succ, List.getD_cons_zero]
      have hd : dot (x :: a) (y :: b) = x * y + dot a b := by
        simp [dot]
      rw [hd, ih]
      ring

/-- The dot product of a vector with itself is the sum of squared entries. -/
theorem dot_self_eq_sum_sq (a : List ℝ) :
    dot a a = ∑ i ∈ Finset.range a.length, a.getD i 0 ^ 2 := by
  rw [dot_eq_sum, Nat.min_self]
  exact Finset.sum_congr rfl fun i _ => (sq (a.getD i 0)).symm

/-- The dot product of a vector with itself is nonnegative. -/
theorem dot_self_nonneg (a : List ℝ) : 0 ≤ dot a a := by
  rw [dot_self_eq_sum_sq]
  exact Finset.sum_nonneg fun i _ => sq_nonneg _

/-- A prefix of the squared entries sums to at most the full squared sum. -/
theorem sum_sq_prefix_le (a : List ℝ) (m : ℕ) (hm : m ≤ a.length) :
    ∑ i ∈ Finset.range m, a.getD i 0 ^ 2 ≤ dot a a := by
  rw [dot_self_eq_sum_sq]
  exact Finset.sum_le_sum_of_subset_of_nonneg
    (Finset.range_subset.mpr hm) (fun i _ _ => sq_nonneg _)

/-- Cauchy-Schwarz for the list dot product: the dot product is bounded by
the product of the L2 norms. -/
theorem dot_le_norm_mul_norm (a b : List ℝ) :
    dot a b ≤ l2norm a * l2norm b := by
  rw [dot_eq_sum]
  calc
    ∑ i ∈ Finset.range (min a.length b.length), a.getD i 0 * b.getD i 0
        ≤ Real.sqrt (∑ i ∈ Finset.range (min a.length b.length), a.getD i 0 ^ 2)
          * Real.sqrt (∑ i ∈ Finset.range (min a.length b.length), b.getD i 0 ^ 2) :=
      Real.sum_mul_le_sqrt_mul_sqrt _ _ _
    _ ≤ l2norm a * l2norm b := by
      apply mul_le_mul
      · exact Real.sqrt_le_sqrt (sum_sq_prefix_le a _ (Nat.min_le_left _ _))
      · exact Real.sqrt_le_sqrt (sum_sq_prefix_le b _ (Nat.min_le_right _ _))
      · exact Real.sqrt_nonneg _
      · exact Real.sqrt_nonneg _

/-- Cauchy-Schwarz, absolute-value form. -/
theorem abs_dot_le (a b : List ℝ) : |dot a b| ≤ l2norm a * l2norm b := by
  rw [abs_le]
  refine ⟨?_, dot_le_norm_mul_norm a b⟩
  have h := dot_le_norm_mul_norm (a.map (fun x => -x)) b
  have hdot : dot (a.map (fun x => -x)) b = -dot a b := by
    rw [dot_eq_sum, dot_eq_sum, List.length_map, ← Finset.sum_neg_distrib]
    refine Finset.sum_congr rfl fun i hi => ?_
    rw [Finset.mem_range] at hi
    have hi' : i < a.length := lt_of_lt_of_le hi (Nat.min_le_left _ _)
    rw [List.getD_eq_getElem?_getD, List.getElem?_map,
      List.getD_eq_getElem?_getD a, List.getElem?_eq_getElem hi']
    simp [neg_mul]
  have hnorm : l2norm (a.map (fun x => -x)) = l2norm a := by
    unfold l2norm
    congr 1
    rw [dot_eq_sum, dot_eq_sum, List.length_map]
    refine Finset.sum_congr rfl fun i hi => ?_
    rw [Finset.mem_range, Nat.min_self] at hi
    rw [List.getD_eq_getElem?_getD, List.getElem?_map,
      List.getD_eq_getElem?_getD a, List.getElem?_eq_getElem hi]
    simp
  rw [hdot, hnorm] at h
  linarith

/-- Every cosine similarity lies in the interval `[-1, 1]`. -/
theorem cosineSim_bounds (a b : List ℝ) :
    -1 ≤ cosineSim a b ∧ cosineSim a b ≤ 1 := by
  unfold cosineSim
  by_cases h : l2norm a = 0 ∨ l2norm b = 0
  · rw [if_pos h]; norm_num
  · rw [if_neg h]
    push_neg at h
    have ha : 0 < l2norm a :=
      lt_of_le_of_ne (Real.sqrt_nonneg _) (Ne.symm h.1)
    have hb : 0 < l2norm b :=
      lt_of_le_of_ne (Real.sqrt_nonneg _) (Ne.symm h.2)
    have habs : |dot a b / (l2norm a * l2norm b)| ≤ 1 := by
      rw [abs_div, abs_of_pos (mul_pos ha hb)]
      exact div_le_one_of_le₀ (abs_dot_le a b) (le_of_lt (mul_pos ha hb))
    exact abs_le.mp habs

end Chatbot

namespace Chatbot

/-- C7: cosine similarity is the dot product divided by the product of the
two L2 norms; when either vector has zero norm the similarity is 0 rather
than an error; and every vector with non-zero self dot product has cosine
similarity 1 with itself. -/
theorem cosineSim_spec (a b v : List ℝ) (hv : dot v v ≠ 0) :
    (l2norm a = 0 ∨ l2norm b = 0 → cosineSim a b = 0) ∧
    (l2norm a ≠ 0 → l2norm b ≠ 0 →
      cosineSim a b = dot a b / (l2norm a * l2norm b)) ∧
    cosineSim v v = 1 := by
  refine ⟨fun h => by simp [cosineSim, h], fun ha hb => ?_, ?_⟩
  · unfold cosineSim
    rw [if_neg]
    rintro (h | h)
    · exact ha h
    · exact hb h
  · have hnn : 0 ≤ dot v v := dot_self_nonneg v
    have hnv : l2norm v ≠ 0 := by
      unfold l2norm
      rw [Ne, Real.sqrt_eq_zero']
      intro hle
      exact hv (le_antisymm hle hnn)
    unfold cosineSim
    rw [if_neg (by rintro (h | h) <;> exact hnv h)]
    unfold l2norm
    rw [Real.mul_self_sqrt hnn]
    exact div_self hv

/-- Witness for C7 at concrete vectors: `a = [0]`, `b = [3, 4]`,
`v = [1, 0]`. -/
theorem cosineSim_spec_witness :
    (l2norm [(0 : ℝ)] = 0 ∨ l2norm [(3 : ℝ), 4] = 0 →
      cosineSim [(0 : ℝ)] [(3 : ℝ), 4] = 0) ∧
    (l2norm [(0 : ℝ)] ≠ 0 → l2norm [(3 : ℝ), 4] ≠ 0 →
      cosineSim [(0 : ℝ)] [(3 : ℝ), 4] =
        dot [(0 : ℝ)] [(3 : ℝ), 4] / (l2norm [(0 : ℝ)] * l2norm [(3 : ℝ), 4])) ∧
    cosineSim [(1 : ℝ), 0] [(1 : ℝ), 0] = 1 :=
  cosineSim_spec [(0 : ℝ)] [(3 : ℝ), 4] [(1 : ℝ), 0] (by norm_num [dot])

end Chatbot

namespace Chatbot

/-! ## Search ordering -/

instance : IsTotal (String × ℝ) rankLE where
  total a b := by
    rcases lt_trichotomy a.2 b.2 with h | h | h
    · exact Or.inr (Or.inl h)
    · rcases le_total a.1 b.1 with hs | hs
      · exact Or.inl (Or.inr ⟨h, hs⟩)
      · exact Or.inr (Or.inr ⟨h.symm, hs⟩)
    · exact Or.inl (Or.inl h)

instance : IsTrans (String × ℝ) rankLE where
  trans a b c hab hbc := by
    rcases hab with hab | ⟨hab, hab'⟩ <;> rcases hbc with hbc | ⟨hbc, hbc'⟩
    · exact Or.inl (lt_trans hbc hab)
    · exact Or.inl (hbc ▸ hab)
    · exact Or.inl (hab ▸ hbc)
    · exact Or.inr ⟨hab.trans hbc, hab'.trans hbc'⟩

/-- C1: for every query and `k ≥ 1`, `search` returns at most `k` results,
sorted by non-increasing cosine score with ties broken by ascending chunk id
(the `rankLE` ordering), every returned score lies in `[-1, 1]`, and an
empty index yields an empty result rather than an error. -/
theorem search_spec (s : IndexState) (q : List ℝ) (k : ℕ) (_hk : 1 ≤ k) :
    (search s q k).length ≤ k ∧
    (search s q k).Pairwise rankLE ∧
    (∀ r ∈ search s q k, -1 ≤ r.2 ∧ r.2 ≤ 1) ∧
    (s.chunks = [] → search s q k = []) := by
  refine ⟨List.length_take_le _ _, ?_, ?_, ?_⟩
  · exact List.Pairwise.sublist (List.take_sublist _ _)
      (@List.sorted_insertionSort _ rankLE
        (fun _ _ => Classical.propDecidable _) _ _ _)
  · intro r hr
    have hr1 : r ∈ @List.insertionSort _ rankLE
        (fun _ _ => Classical.propDecidable _)
        (s.chunks.map fun c => (c.chunkId, cosineSim q c.embedding)) :=
      (List.take_sublist _ _).subset hr
    have hr2 : r ∈ s.chunks.map fun c => (c.chunkId, cosineSim q c.embedding) :=
      (@List.perm_insertionSort _ rankLE
        (fun _ _ => Classical.propDecidable _) _).subset hr1
    obtain ⟨c, _, rfl⟩ := List.mem_map.mp hr2
    exact cosineSim_bounds q c.embedding
  · intro hempty
    unfold search
    rw [hempty]
    simp

/-- Witness for C1 at a concrete empty index, query and `k = 5`. -/
theorem search_spec_witness :
    (search ⟨2, []⟩ [(1 : ℝ), 0] 5).length ≤ 5 ∧
    (search ⟨2, []⟩ [(1 : ℝ), 0] 5).Pairwise rankLE ∧
    (∀ r ∈ search ⟨2, []⟩ [(1 : ℝ), 0] 5, -1 ≤ r.2 ∧ r.2 ≤ 1) ∧
    ((⟨2, []⟩ : IndexState).chunks = [] → search ⟨2, []⟩ [(1 : ℝ), 0] 5 = []) :=
  search_spec ⟨2, []⟩ [(1 : ℝ), 0] 5 (by decide)

end Chatbot

namespace Chatbot

/-! ## Indexer (modelled from the spec) -/

/-- Chunking configuration of §4.2: window size and overlap. -/
structure ChunkConfig where
  chunkSize : ℕ
  chunkOverlap : ℕ

/-- Size-bounded sliding windows over a character sequence, advancing by
`step` characters each time. The fuel argument bounds the recursion; with
`step ≥ 1`, fuel equal to the input length is always sufficient. -/
def chunkWindowsAux (size step : ℕ) : ℕ → List Char → List (List Char)
  | 0, _ => []
  | _, [] => []
  | fuel + 1, cs => cs.take size :: chunkWindowsAux size step fuel (cs.drop step)

/-- Modelled from the spec: the chunking policy of §4.2 — "size-bounded text
windows, order-preserving", with configured window size and overlap (missing
source: `mcp_server`). -/
def chunkText (cfg : ChunkConfig) (content : String) : List String :=
  (chunkWindowsAux cfg.chunkSize (max 1 (cfg.chunkSize - cfg.chunkOverlap))
    content.toList.length content.toList).map List.asString

/-- The boundary capabilities consumed by the Indexer (§6): the Document
Fetcher listing and the embedding generator. -/
structure IndexerCaps where
  listAll : Except CapError (List DocumentRecord)
  embed : String → Except CapError (List ℝ)

/-- Result summary of a reindex run (§6). -/
structure ReindexSummary where
  documentCount : ℕ
  chunkCount : ℕ
  skippedChunks : ℕ
deriving DecidableEq, Repr

/-- Modelled from the spec: `reindex()` of §4.2 (missing source:
`mcp_server`) — list all documents, chunk each document's content, request
an embedding per chunk, and rebuild the Embedding Index. A total listing
failure aborts and leaves the previous index untouched; an embedding failure
for an individual chunk skips that chunk and counts it in the summary. -/
def reindex (cfg : ChunkConfig) (caps : IndexerCaps) (prev : IndexState) :
    IndexState × Except CapError ReindexSummary :=
  match caps.listAll with
  | .error e => (prev, .error e)
  | .ok docs =>
    let pieces := docs.flatMap fun d =>
      (chunkText cfg d.content).map fun t => (d.id, t)
    let embedded := pieces.enum.filterMap fun p =>
      match caps.embed p.2.2 with
      | .ok v => some (⟨p.2.1, p.2.1 ++ "#" ++ toString p.1, p.2.2, v⟩ : IndexedChunk)
      | .error _ => none
    match rebuild prev embedded with
    | .error e => (prev, .error e)
    | .ok s' =>
      (s', .ok { documentCount := docs.length,
                 chunkCount := embedded.length,
                 skippedChunks := pieces.length - embedded.length })

end Chatbot

namespace Chatbot

/-- C2: if the Document Fetcher fails for the whole listing, `reindex` fails
and leaves the previous index unchanged; if embedding fails for an
individual chunk, the chunk is skipped and counted — concretely, with 3
chunks of which embedding fails on exactly 1, `reindex` returns
`chunkCount = 2` and `skippedChunks = 1` without raising. -/
theorem reindex_partial_failure (cfg : ChunkConfig) (caps : IndexerCaps)
    (prev : IndexState) (e : CapError) (hfail : caps.listAll = .error e) :
    reindex cfg caps prev = (prev, .error e) ∧
    ∃ sm, (reindex ⟨2, 0⟩
        ⟨.ok [⟨"d1", "Doc 1", "aabbcc", 0, "uri"⟩],
         fun t => if t = "bb" then .error (.embeddingError "fail")
                  else .ok [(1 : ℝ), 0]⟩
        ⟨2, []⟩).2 = .ok sm ∧
      sm.chunkCount = 2 ∧ sm.skippedChunks = 1 := by
  constructor
  · unfold reindex
    rw [hfail]
  · exact ⟨{ documentCount := 1, chunkCount := 2, skippedChunks := 1 },
      rfl, rfl, rfl⟩

/-- Witness for C2 at a concrete failing fetcher. -/
theorem reindex_partial_failure_witness :
    reindex ⟨2, 0⟩ ⟨.error (.fetchError "listing failed"), fun _ => .ok [(1 : ℝ), 0]⟩
        ⟨2, []⟩ = (⟨2, []⟩, .error (.fetchError "listing failed")) ∧
    ∃ sm, (reindex ⟨2, 0⟩
        ⟨.ok [⟨"d1", "Doc 1", "aabbcc", 0, "uri"⟩],
         fun t => if t = "bb" then .error (.embeddingError "fail")
                  else .ok [(1 : ℝ), 0]⟩
        ⟨2, []⟩).2 = .ok sm ∧
      sm.chunkCount = 2 ∧ sm.skippedChunks = 1 :=
  reindex_partial_failure ⟨2, 0⟩
    ⟨.error (.fetchError "listing failed"), fun _ => .ok [(1 : ℝ), 0]⟩
    ⟨2, []⟩ (.fetchError "listing failed") rfl

end Chatbot

namespace Chatbot

/-! ## Intent classifier and router (modelled from the spec) -/

/-- Modelled from the spec: the closed `Intent` enumeration of §3 (missing
source: `mcp_server`). -/
inductive Intent where
  | SEARCH_DOCS : Intent
  | GENERAL_QA : Intent
  | CREATE_DOCUMENT : Intent
  | LIST_FILES : Intent
  | UNKNOWN : Intent
deriving DecidableEq, Repr

/-- Modelled from the spec: validation of the language model's free-form
output against the closed enumeration (§4.3); unrecognized output maps to
`UNKNOWN` rather than raising (missing source: `intent_classifier.py`). -/
def parseIntent (out : String) : Intent :=
  if out = "SEARCH_DOCS" then .SEARCH_DOCS
  else if out = "GENERAL_QA" then .GENERAL_QA
  else if out = "CREATE_DOCUMENT" then .CREATE_DOCUMENT
  else if out = "LIST_FILES" then .LIST_FILES
  else .UNKNOWN

/-- The boundary capabilities consumed by the Router (§6): the classification
language-model call, the embedder, the completion call, and the Document
Fetcher's list and write capabilities. -/
structure RouterCaps where
  classifyLM : String → Except CapError (String × List (String × String))
  embed : String → Except CapError (List ℝ)
  complete : String → String → Except CapError String
  listAll : Except CapError (List DocumentRecord)
  createDoc : String → String → Except CapError DocumentRecord

/-- Modelled from the spec: `classify(requestText)` of §4.3 — delegate to the
language model and validate its output against the closed enumeration
(missing source: `intent_classifier.py`). -/
def classify (caps : RouterCaps) (req : String) :
    Except CapError (Intent × List (String × String)) :=
  match caps.classifyLM req with
  | .error e => .error e
  | .ok (raw, ps) => .ok (parseIntent raw, ps)

/-- An external-capability invocation observed during `resolve`, used to
express the call-count properties of §8. -/
inductive CapCall where
  | classifierCall : CapCall
  | fetcherCall : CapCall
  | indexCall : CapCall
  | embedderCall : CapCall
  | completionCall : CapCall
deriving DecidableEq, Repr

/-- Modelled from the spec: `RouterResponse` of §3. A source entry is
`(documentId, title, score)`; the chunk store carries no document titles, so
the document id stands in for the title. -/
structure RouterResponse where
  answer : String
  sources : List (String × String × ℝ)
  error : Option String

/-- Rendering of a capability error into the `error` field. -/
def errText : CapError → String
  | .fetchError m => "FetchError: " ++ m
  | .writeError m => "WriteError: " ++ m
  | .embeddingError m => "EmbeddingError: " ++ m
  | .completionError m => "CompletionError: " ++ m
  | .indexBuildError m => "IndexBuildError: " ++ m
  | .missingParameterError m => "MissingParameterError: " ++ m

/-- The response produced at the Router boundary when a capability fails:
`error` set, `answer` empty (§7). -/
def errorResponse (e : CapError) : RouterResponse :=
  { answer := "", sources := [], error := some (errText e) }

/-- Text of the stored chunk with the given id, for answer synthesis. -/
def lookupChunkText (s : IndexState) (cid : String) : String :=
  ((s.chunks.find? fun c => c.chunkId = cid).map (·.text)).getD ""

/-- Document id of the stored chunk with the given id. -/
def chunkDocId (s : IndexState) (cid : String) : String :=
  ((s.chunks.find? fun c => c.chunkId = cid).map (·.documentId)).getD ""

/-- Deduplicate retrieved (documentId, score) pairs by document, keeping the
first (best-ranked) entry per document (§4.4 step 3). -/
def dedupByDoc (l : List (String × ℝ)) : List (String × ℝ) :=
  l.foldl (fun acc p => if acc.any fun q => q.1 = p.1 then acc else acc ++ [p]) []

/-- Modelled from the spec: the `GENERAL_QA` handler of §4.4 — invoke the
completion call directly on the request text, no retrieval step (missing
source: `mcp_server`). -/
def generalQA (caps : RouterCaps) (req : String) :
    RouterResponse × List (CapCall × Bool) :=
  match caps.complete req "" with
  | .error e => (errorResponse e, [(.completionCall, false)])
  | .ok ans => ({ answer := ans, sources := [], error := none },
                [(.completionCall, true)])

/-- Modelled from the spec: the dispatch step of §4.4 (missing source:
`mcp_server`). Alongside the response it returns the sequence of external
capability invocations, each tagged with whether the call succeeded. -/
noncomputable def dispatch (caps : RouterCaps) (s : IndexState) (topK : ℕ) (req : String)
    (i : Intent) (ps : List (String × String)) :
    RouterResponse × List (CapCall × Bool) :=
  match i with
  | .SEARCH_DOCS =>
    match caps.embed ((ps.lookup "query").getD req) with
    | .error e => (errorResponse e, [(.embedderCall, false)])
    | .ok qv =>
      if s.chunks.isEmpty then
        ({ answer := "no documents indexed", sources := [], error := none },
         [(.embedderCall, true), (.indexCall, true)])
      else
        match caps.complete req (String.intercalate "\n"
            ((search s qv topK).map fun r => lookupChunkText s r.1)) with
        | .error e => (errorResponse e,
            [(.embedderCall, true), (.indexCall, true), (.completionCall, false)])
        | .ok ans =>
          ({ answer := ans,
             sources := (dedupByDoc ((search s qv topK).map
               fun r => (chunkDocId s r.1, r.2))).map fun p => (p.1, p.1, p.2),
             error := none },
           [(.embedderCall, true), (.indexCall, true), (.completionCall, true)])
  | .GENERAL_QA => generalQA caps req
  | .UNKNOWN => generalQA caps req
  | .CREATE_DOCUMENT =>
    match ps.lookup "documentTitle", ps.lookup "documentBody" with
    | some t, some b =>
      match caps.createDoc t b with
      | .error e => (errorResponse e, [(.fetcherCall, false)])
      | .ok doc => ({ answer := "Created document: " ++ doc.title,
                      sources := [], error := none }, [(.fetcherCall, true)])
    | _, _ => (errorResponse (.missingParameterError "documentTitle/documentBody"), [])
  | .LIST_FILES =>
    match caps.listAll with
    | .error e => (errorResponse e, [(.fetcherCall, false)])
    | .ok docs => ({ answer := String.intercalate ", " (docs.map (·.title)),
                     sources := [], error := none }, [(.fetcherCall, true)])

/-- Modelled from the spec: `resolve(requestText)` of §4.4 — classify, then
dispatch by intent, catching capability errors at the Router boundary
(missing source: `mcp_server`). The function is total: no failure escapes as
an exception. -/
noncomputable def resolve (caps : RouterCaps) (s : IndexState) (topK : ℕ)
    (req : String) : RouterResponse × List (CapCall × Bool) :=
  match caps.classifyLM req with
  | .error e => (errorResponse e, [(.classifierCall, false)])
  | .ok (raw, ps) =>
    let out := dispatch caps s topK req (parseIntent raw) ps
    (out.1, (.classifierCall, true) :: out.2)

end Chatbot

namespace Chatbot

/-- C6: given any language-model output, `classify` returns a member of the
closed intent enumeration together with the extracted parameters, and when
the output is not a recognized intent name it returns `UNKNOWN` rather than
raising an error. -/
theorem classify_closed_enumeration (caps : RouterCaps) (req raw : String)
    (ps : List (String × String))
    (hc : caps.classifyLM req = .ok (raw, ps)) :
    ∃ i, classify caps req = .ok (i, ps) ∧
      i ∈ ([.SEARCH_DOCS, .GENERAL_QA, .CREATE_DOCUMENT, .LIST_FILES,
            .UNKNOWN] : List Intent) ∧
      (raw ∉ ["SEARCH_DOCS", "GENERAL_QA", "CREATE_DOCUMENT", "LIST_FILES"] →
        i = .UNKNOWN) := by
  refine ⟨parseIntent raw, ?_, ?_, ?_⟩
  · unfold classify
    rw [hc]
  · unfold parseIntent
    split_ifs <;> simp
  · intro hraw
    simp only [List.mem_cons, List.not_mem_nil, or_false, not_or] at hraw
    obtain ⟨h1, h2, h3, h4⟩ := hraw
    simp [parseIntent, h1, h2, h3, h4]

/-- Witness for C6 at a concrete nonsense model output. -/
theorem classify_closed_enumeration_witness :
    ∃ i, classify
        ⟨fun _ => .ok ("asdkjasd", []), fun _ => .ok [(1 : ℝ), 0],
         fun _ _ => .ok "ans", .ok [], fun t b => .ok ⟨"id", t, b, 0, "u"⟩⟩
        "asdkjasd nonsense" = .ok (i, []) ∧
      i ∈ ([.SEARCH_DOCS, .GENERAL_QA, .CREATE_DOCUMENT, .LIST_FILES,
            .UNKNOWN] : List Intent) ∧
      ("asdkjasd" ∉ ["SEARCH_DOCS", "GENERAL_QA", "CREATE_DOCUMENT",
            "LIST_FILES"] → i = .UNKNOWN) :=
  classify_closed_enumeration
    ⟨fun _ => .ok ("asdkjasd", []), fun _ => .ok [(1 : ℝ), 0],
     fun _ _ => .ok "ans", .ok [], fun t b => .ok ⟨"id", t, b, 0, "u"⟩⟩
    "asdkjasd nonsense" "asdkjasd" [] rfl

/-- Helper for C3: whenever the dispatch step records a failed capability
call, its response has an empty answer and the error field set. -/
theorem dispatch_failure_to_error (caps : RouterCaps) (s : IndexState)
    (topK : ℕ) (req : String) (i : Intent) (ps : List (String × String))
    (h : ∃ c ∈ (dispatch caps s topK req i ps).2, c.2 = false) :
    (dispatch caps s topK req i ps).1.answer = "" ∧
    (dispatch caps s topK req i ps).1.error.isSome := by
  cases i
  case SEARCH_DOCS =>
    simp only [dispatch] at h ⊢
    cases hemb : caps.embed ((ps.lookup "query").getD req) with
    | error e => simp [errorResponse]
    | ok qv =>
      cases he : s.chunks.isEmpty with
      | true => simp [hemb, he] at h
      | false =>
        cases hcomp : caps.complete req (String.intercalate "\n"
            ((search s qv topK).map fun r => lookupChunkText s r.1)) with
        | error e => simp [he, hcomp, errorResponse]
        | ok ans => simp [hemb, he, hcomp] at h
  case GENERAL_QA =>
    simp only [dispatch, generalQA] at h ⊢
    cases hcomp : caps.complete req "" with
    | error e => simp [errorResponse]
    | ok ans => simp [hcomp] at h
  case UNKNOWN =>
    simp only [dispatch, generalQA] at h ⊢
    cases hcomp : caps.complete req "" with
    | error e => simp [errorResponse]
    | ok ans => simp [hcomp] at h
  case CREATE_DOCUMENT =>
    simp only [dispatch] at h ⊢
    cases ht : ps.lookup "documentTitle" with
    | none => simp [errorResponse]
    | some t =>
      cases hb : ps.lookup "documentBody" with
      | none => simp [errorResponse]
      | some b =>
        cases hw : caps.createDoc t b with
        | error e => simp [hw, errorResponse]
        | ok doc => simp [ht, hb, hw] at h
  case LIST_FILES =>
    simp only [dispatch] at h ⊢
    cases hl : caps.listAll with
    | error e => simp [errorResponse]
    | ok docs => simp [hl] at h

/-- C3: if any external-capability call made during `resolve` fails, the
router still returns a `RouterResponse` whose error field is set and whose
answer is empty; `resolve` is a total function, so no capability failure
propagates as an unhandled exception. -/
theorem resolve_catches_capability_failures (caps : RouterCaps)
    (s : IndexState) (topK : ℕ) (req : String)
    (h : ∃ c ∈ (resolve caps s topK req).2, c.2 = false) :
    (resolve caps s topK req).1.answer = "" ∧
    (resolve caps s topK req).1.error.isSome := by
  unfold resolve at h ⊢
  cases hc : caps.classifyLM req with
  | error e => simp [errorResponse]
  | ok p =>
    obtain ⟨raw, ps⟩ := p
    simp only [hc, List.mem_cons] at h
    obtain ⟨c, hcmem | hcmem, hcfalse⟩ := h
    · subst hcmem; cases hcfalse
    · exact dispatch_failure_to_error caps s topK req (parseIntent raw) ps
        ⟨c, hcmem, hcfalse⟩

/-- Witness for C3 at a concrete capability set whose completion call fails:
the general-QA path records a failed completion call. -/
theorem resolve_catches_capability_failures_witness :
    (resolve ⟨fun _ => .ok ("GENERAL_QA", []), fun _ => .ok [(1 : ℝ), 0],
        fun _ _ => .error (.completionError "timeout"), .ok [],
        fun t b => .ok ⟨"id", t, b, 0, "u"⟩⟩ ⟨2, []⟩ 5 "hi").1.answer = "" ∧
    (resolve ⟨fun _ => .ok ("GENERAL_QA", []), fun _ => .ok [(1 : ℝ), 0],
        fun _ _ => .error (.completionError "timeout"), .ok [],
        fun t b => .ok ⟨"id", t, b, 0, "u"⟩⟩ ⟨2, []⟩ 5 "hi").1.error.isSome :=
  resolve_catches_capability_failures _ ⟨2, []⟩ 5 "hi"
    ⟨(.completionCall, false), by
      simp [resolve, dispatch, generalQA, parseIntent], rfl⟩

/-- C5: when the classifier's output parses to `UNKNOWN` or `GENERAL_QA`,
`resolve` never invokes the Document Fetcher or the Embedding Index, and the
`UNKNOWN` intent is dispatched exactly as `GENERAL_QA`. -/
theorem resolve_general_no_retrieval (caps : RouterCaps) (s : IndexState)
    (topK : ℕ) (req raw : String) (ps : List (String × String))
    (hc : caps.classifyLM req = .ok (raw, ps))
    (hi : parseIntent raw = .UNKNOWN ∨ parseIntent raw = .GENERAL_QA) :
    (∀ c ∈ (resolve caps s topK req).2,
      c.1 ≠ CapCall.fetcherCall ∧ c.1 ≠ CapCall.indexCall) ∧
    dispatch caps s topK req .UNKNOWN ps = dispatch caps s topK req .GENERAL_QA ps := by
  refine ⟨?_, rfl⟩
  intro c hcmem
  unfold resolve at hcmem
  rw [hc] at hcmem
  simp only [List.mem_cons] at hcmem
  rcases hcmem with rfl | hcmem
  · exact ⟨by simp, by simp⟩
  · have hlog : (dispatch caps s topK req (parseIntent raw) ps).2 =
        (generalQA caps req).2 := by
      rcases hi with hi | hi
      · rw [hi]; rfl
      · rw [hi]; rfl
    rw [hlog] at hcmem
    unfold generalQA at hcmem
    cases hcomp : caps.complete req "" with
    | error e => rw [hcomp] at hcmem; simp at hcmem; simp [hcmem]
    | ok ans => rw [hcomp] at hcmem; simp at hcmem; simp [hcmem]

/-- Witness for C5 at a concrete capability set classifying to `UNKNOWN`. -/
theorem resolve_general_no_retrieval_witness :
    (∀ c ∈ (resolve ⟨fun _ => .ok ("gibberish", []), fun _ => .ok [(1 : ℝ), 0],
        fun _ _ => .ok "ans", .ok [], fun t b => .ok ⟨"id", t, b, 0, "u"⟩⟩
        ⟨2, []⟩ 5 "hi").2,
      c.1 ≠ CapCall.fetcherCall ∧ c.1 ≠ CapCall.indexCall) ∧
    dispatch ⟨fun _ => .ok ("gibberish", []), fun _ => .ok [(1 : ℝ), 0],
        fun _ _ => .ok "ans", .ok [], fun t b => .ok ⟨"id", t, b, 0, "u"⟩⟩
      ⟨2, []⟩ 5 "hi" .UNKNOWN [] =
    dispatch ⟨fun _ => .ok ("gibberish", []), fun _ => .ok [(1 : ℝ), 0],
        fun _ _ => .ok "ans", .ok [], fun t b => .ok ⟨"id", t, b, 0, "u"⟩⟩
      ⟨2, []⟩ 5 "hi" .GENERAL_QA [] :=
  resolve_general_no_retrieval _ ⟨2, []⟩ 5 "hi" "gibberish" [] rfl
    (Or.inl (by decide))

end Chatbot
